import Mathlib

/-!
Verification of the pairing-session lifecycle manager of `src/server.js`
(a WhatsApp/Baileys pairing server).

The embedding below translates the state and operations of the server:
the in-memory `pairingMap` (a JS object keyed by 6-digit code), the
per-session working directory under `sessions/<code>`, the code
allocator `genCode` plus the uniqueness retry loop of `GET /pair`, the
expiry sweeper (`setInterval` + `cleanupSession`), the
`connection.update` event handler of `startPairingForCode` (qr branch,
open branch with its consolidated-artifact write, close branch), and the
query endpoints `GET /status/:code` and `GET /download-session/:code`.

JS objects and directories are modelled as association lists
`List (String × _)` with first-match lookup (`getKey`), in-place update
(`setKey`, `updKey`) and deletion (`delKey`), matching JS object /
filesystem semantics on their unique-key instances.  Timestamps are
`Int` milliseconds.  Fallible filesystem / protocol operations are
modelled with `Except` / `Option` error parameters.
-/

namespace PairingServer

/-- Session status strings used in server.js:
'created', 'connecting', 'qr', 'code', 'open', 'closed', 'error'. -/
inductive Status where
  | created
  | connecting
  | qr
  | code
  | «open»
  | closed
  | error
deriving DecidableEq

/-- First-match lookup in an association list; models `obj[key]` on a JS
object (keys are unique there) and file lookup in a directory. -/
def getKey {β : Type} : List (String × β) → String → Option β
  | [], _ => none
  | p :: t, k => if p.1 = k then some p.2 else getKey t k

/-- Update-or-append: models `obj[key] = v` on a JS object (update keeps
the key's insertion position) and `fs.writeFileSync` into a directory
(overwrite an existing file, otherwise create a new entry). -/
def setKey {β : Type} : List (String × β) → String → β → List (String × β)
  | [], k, v => [(k, v)]
  | p :: t, k, v => if p.1 = k then (k, v) :: setKey t k v else p :: setKey t k v

/-- Apply `f` to the entry at key `k`, if present; models field mutation
`pairingMap[code].field = v`. -/
def updKey {β : Type} : List (String × β) → String → (β → β) → List (String × β)
  | [], _, _ => []
  | p :: t, k, f => if p.1 = k then (p.1, f p.2) :: updKey t k f else p :: updKey t k f

/-- Remove the entry at key `k`; models `delete pairingMap[code]` and
`fs.rmSync(dir, \x7b recursive: true \x7d)` of a whole session directory. -/
def delKey {β : Type} : List (String × β) → String → List (String × β)
  | [], _ => []
  | p :: t, k => if p.1 = k then delKey t k else p :: delKey t k

/-- A working directory: file name ↦ file text content. -/
abbrev Dir := List (String × String)

/-- One entry of `pairingMap`: the record created by `GET /pair` and
mutated by the lifecycle event handlers. `sock` records whether the
socket handle has been attached (used only for cleanup). -/
structure SessionRecord where
  code : String
  status : Status
  qr : Option String
  pairingCode : Option String
  sessionPath : String
  createdAt : Int
  error : Option String
  sock : Bool
deriving DecidableEq

/-- The server state the claims range over: the in-memory `pairingMap`
plus the on-disk session directories (keyed by their path). -/
structure ServerState where
  pairingMap : List (String × SessionRecord)
  fsDirs : List (String × Dir)
deriving DecidableEq

/-- `const SESSION_TTL = 300 * 1000` (milliseconds). -/
def SESSION_TTL : Int := 300 * 1000

/-- `genCode()`: `Math.floor(100000 + Math.random() * 900000).toString()`.
The random draw `Math.floor(Math.random() * 900000)` is modelled as a
`Nat` parameter `rand` (faithful when `rand < 900000`). -/
def genCode (rand : Nat) : String := Nat.repr (100000 + rand)

/-- The uniqueness retry loop of `GET /pair`:
`let code = genCode(); while (pairingMap[code]) code = genCode();`,
driven by a finite stream of random draws (`none` when exhausted). -/
def allocateCode (m : List (String × SessionRecord)) : List Nat → Option String
  | [] => none
  | r :: rs =>
    let c := genCode r
    if (getKey m c).isSome then allocateCode m rs else some c

/-- The fresh record that `GET /pair` stores under the allocated code. -/
def createRecord (code : String) (now : Int) : SessionRecord :=
  { code := code
    status := Status.created
    qr := none
    pairingCode := none
    sessionPath := "sessions/" ++ code
    createdAt := now
    error := none
    sock := false }

/-- Hexadecimal digit character, as produced by JS string escapes. -/
def hexDigitChar (n : Nat) : Char :=
  if n < 10 then Char.ofNat (48 + n) else Char.ofNat (87 + n)

/-- Escaping of one character inside a JSON string literal, as performed
by `JSON.stringify` on file contents and names. -/
def jsonEscapeChar (c : Char) : String :=
  if c = '"' then "\\\""
  else if c = '\\' then "\\\\"
  else if c = '\n' then "\\n"
  else if c = '\t' then "\\t"
  else if c = '\r' then "\\r"
  else if c = '\x08' then "\\b"
  else if c = '\x0c' then "\\f"
  else if c.toNat < 32 then
    "\\u00" ++ String.singleton (hexDigitChar (c.toNat / 16))
      ++ String.singleton (hexDigitChar (c.toNat % 16))
  else String.singleton c

/-- A JSON string literal for `s`. -/
def jsonQuote (s : String) : String :=
  "\"" ++ String.join (s.data.map jsonEscapeChar) ++ "\""

/-- One member line of `JSON.stringify(files, null, 2)`:
two-space indent, quoted key, colon, quoted string value. -/
def encodeEntry (name content : String) : String :=
  "  " ++ jsonQuote name ++ ": " ++ jsonQuote content

/-- Comma-newline join of the member lines, as `JSON.stringify` lays
out an object with indent 2. -/
def joinEntries : List String → String
  | [] => ""
  | [e] => e
  | e :: rest => e ++ ",\n" ++ joinEntries rest

/-- Model of `JSON.stringify(files, null, 2)` for a string-valued
object: `\x7b\x7d` when empty, otherwise the members joined by `,\n`
between `\x7b\n` and `\n\x7d`. -/
def stringifyFiles : Dir → String
  | [] => "\x7b\x7d"
  | d => "\x7b\n" ++ joinEntries (d.map fun p => encodeEntry p.1 p.2) ++ "\n\x7d"

/-- The loop `for (const f of filesOnDisk) files[f] = txt` that builds
the `files` object from the directory listing. -/
def filesObject (d : Dir) : Dir :=
  d.foldl (fun m p => setKey m p.1 p.2) []

/-- The consolidated-artifact step of the open branch: read every file
of the session directory into the `files` object, then
`fs.writeFileSync(outPath, JSON.stringify(files, null, 2))` with
`outPath = session_id.json` inside the same directory. -/
def materialize (d : Dir) : Dir :=
  setKey d "session_id.json" (stringifyFiles (filesObject d))

/-- `info.status !== 'open' && (now - info.createdAt) > SESSION_TTL`:
the sweeper's eviction test for one record. -/
def shouldEvict (now : Int) (info : SessionRecord) : Bool :=
  info.status != Status.«open» && decide (now - info.createdAt > SESSION_TTL)

/-- `cleanupSession(code)` on the happy path (no filesystem error):
close the socket (no modelled state effect), remove the session
directory if it exists, delete the map entry. -/
def cleanupSession (code : String) (st : ServerState) : ServerState :=
  match getKey st.pairingMap code with
  | none => st
  | some info =>
    { pairingMap := delKey st.pairingMap code
      fsDirs := delKey st.fsDirs info.sessionPath }

/-- The body of the `setInterval` sweeper, iterating over the keys of
`pairingMap` and evicting each record that fails the TTL test. -/
def sweepGo (now : Int) : List String → ServerState → ServerState
  | [], st => st
  | c :: rest, st =>
    match getKey st.pairingMap c with
    | some info =>
      if shouldEvict now info then sweepGo now rest (cleanupSession c st)
      else sweepGo now rest st
    | none => sweepGo now rest st

/-- One tick of the expiry sweeper. -/
def sweepTick (now : Int) (st : ServerState) : ServerState :=
  sweepGo now (st.pairingMap.map Prod.fst) st

/-- `cleanupSession` where `fs.rmSync` may throw: `rmFail path` gives
the error thrown when removing `path`, if any.  When it throws, the
subsequent `delete pairingMap[code]` statement is never reached. -/
def cleanupSessionF (rmFail : String → Option String) (code : String) (st : ServerState) :
    Except String ServerState :=
  match getKey st.pairingMap code with
  | none => Except.ok st
  | some info =>
    if (getKey st.fsDirs info.sessionPath).isSome then
      match rmFail info.sessionPath with
      | some e => Except.error e
      | none =>
        Except.ok
          { pairingMap := delKey st.pairingMap code
            fsDirs := delKey st.fsDirs info.sessionPath }
    else
      Except.ok { pairingMap := delKey st.pairingMap code, fsDirs := st.fsDirs }

/-- The sweeper loop with fallible directory removal.  The loop body has
no try/catch, so the first throwing eviction aborts the whole tick; the
pair returned is the state reached so far and the escaped error. -/
def sweepGoF (rmFail : String → Option String) (now : Int) :
    List String → ServerState → ServerState × Option String
  | [], st => (st, none)
  | c :: rest, st =>
    match getKey st.pairingMap c with
    | some info =>
      if shouldEvict now info then
        match cleanupSessionF rmFail c st with
        | Except.error e => (st, some e)
        | Except.ok st' => sweepGoF rmFail now rest st'
      else sweepGoF rmFail now rest st
    | none => sweepGoF rmFail now rest st

/-- One tick of the expiry sweeper with fallible directory removal. -/
def sweepTickF (rmFail : String → Option String) (now : Int) (st : ServerState) :
    ServerState × Option String :=
  sweepGoF rmFail now (st.pairingMap.map Prod.fst) st

/-- Response body of `GET /status/:code` on the found path. -/
structure StatusResponse where
  ok : Bool
  code : String
  status : Status
  qrAvailable : Bool
  pairingCode : Option String
  sessionReady : Bool
  expiresIn : Int
  error : Option String
deriving DecidableEq

/-- `GET /status/:code`: `none` models the 404 `status: 'expired'`
response for an unknown code; otherwise the JSON body, with
`expiresIn = Math.max(0, SESSION_TTL - (Date.now() - createdAt))` and
`sessionReady = fs.existsSync(sessionPath + '/session_id.json')`. -/
def statusQuery (now : Int) (code : String) (st : ServerState) : Option StatusResponse :=
  match getKey st.pairingMap code with
  | none => none
  | some info =>
    let sessDir := (getKey st.fsDirs info.sessionPath).getD []
    some
      { ok := true
        code := info.code
        status := info.status
        qrAvailable := info.qr.isSome
        pairingCode := info.pairingCode
        sessionReady := (getKey sessDir "session_id.json").isSome
        expiresIn := max 0 (SESSION_TTL - (now - info.createdAt))
        error := info.error }

/-- Outcome of `GET /download-session/:code`. -/
inductive DownloadResult where
  | invalidCode
  | notReady
  | file (name content : String)
deriving DecidableEq

/-- `GET /download-session/:code`: 404 `invalid code or session expired`
for an unknown code, 404 `session not ready` when `session_id.json` does
not exist, otherwise the artifact download named `<code>-session.json`. -/
def downloadSession (code : String) (st : ServerState) : DownloadResult :=
  match getKey st.pairingMap code with
  | none => DownloadResult.invalidCode
  | some info =>
    match getKey ((getKey st.fsDirs info.sessionPath).getD []) "session_id.json" with
    | none => DownloadResult.notReady
    | some txt => DownloadResult.file (code ++ "-session.json") txt

/-- The `qr` branch of the `connection.update` handler:
store the rendered payload, then
`if (pairingMap[code].status !== 'code') pairingMap[code].status = 'qr'`. -/
def qrBranch (qrImage : String) (info : SessionRecord) : SessionRecord :=
  let info1 := { info with qr := some qrImage }
  if info1.status != Status.code then { info1 with status := Status.qr } else info1

/-- The `pairingCode` callback passed to `makeWASocket`: store the
numeric code and set status `'code'`. -/
def pairingCodeCallback (pCode : String) (info : SessionRecord) : SessionRecord :=
  { info with pairingCode := some pCode, status := Status.code }

/-- The `connection === 'close'` branch of the handler. -/
def closeBranch (info : SessionRecord) : SessionRecord :=
  { info with status := Status.closed }

/-- Result of the `connection === 'open'` branch: the mutated record,
the resulting directory contents, the `console.warn` log entries, and
the error that escaped the handler, if any. -/
structure OpenBranchResult where
  record : SessionRecord
  dir : Dir
  warnLog : List String
  thrown : Option String
deriving DecidableEq

/-- The `connection === 'open'` branch of the `connection.update`
handler.  `credsFail` models `await saveCreds()` throwing (caught, and
`console.warn`-logged); `writeFail` models the artifact block
(readdir / readFile / writeFile) throwing — that block sits outside the
try/catch, so its error escapes the handler.  `d` is the session
directory contents after the `saveCreds` attempt. -/
def openBranch (credsFail writeFail : Option String) (info : SessionRecord) (d : Dir) :
    OpenBranchResult :=
  let info1 := { info with status := Status.«open» }
  let warns := match credsFail with
    | some e => ["saveCreds failed " ++ e]
    | none => []
  match writeFail with
  | some e => { record := info1, dir := d, warnLog := warns, thrown := some e }
  | none => { record := info1, dir := materialize d, warnLog := warns, thrown := none }

/-- The prefix of `startPairingForCode` up to the socket being attached:
throws `'no pairing info'` when the record is missing, then
`fetchLatestBaileysVersion` and `useMultiFileAuthState` may throw; on
success the record's status becomes `'connecting'` and the socket handle
is saved for cleanup. -/
def startPairingAttempt (versionFetch authInit : Except String Unit)
    (code : String) (st : ServerState) : Except String ServerState :=
  match getKey st.pairingMap code with
  | none => Except.error "no pairing info"
  | some _ =>
    match versionFetch with
    | Except.error e => Except.error e
    | Except.ok _ =>
      match authInit with
      | Except.error e => Except.error e
      | Except.ok _ =>
        Except.ok
          { st with
              pairingMap := updKey st.pairingMap code
                (fun info => { info with status := Status.connecting, sock := true }) }

/-- The `.catch` handler installed by `GET /pair`:
`pairingMap[code].status = 'error'; pairingMap[code].error = String(err)`. -/
def pairCatchHandler (code : String) (errMsg : String) (st : ServerState) : ServerState :=
  { st with
      pairingMap := updKey st.pairingMap code
        (fun info => { info with status := Status.error, error := some errMsg }) }

/-- `startPairingForCode(code).catch(...)` as seen from the store: the
successful startup state, or the original state with the record marked
`'error'`. -/
def pairBackground (versionFetch authInit : Except String Unit)
    (code : String) (st : ServerState) : ServerState :=
  match startPairingAttempt versionFetch authInit code st with
  | Except.ok st' => st'
  | Except.error e => pairCatchHandler code e st

/-- Uniqueness of keys in an association list. -/
abbrev KeysNodup {β : Type} (m : List (String × β)) : Prop :=
  (m.map Prod.fst).Nodup

/-- Sample working directory with the two credential files of the
spec's Scenario C. -/
def sampleDir : Dir := [("creds.json", "x"), ("app-state.json", "y")]

/-- Sample working directory with a single credential file. -/
def sampleDirOne : Dir := [("creds.json", "x")]

/-- Sample fresh record under code 123456. -/
def sampleRecord : SessionRecord := createRecord "123456" 0

/-- Sample record under code 123456 that has reached status open. -/
def sampleOpenRecord : SessionRecord :=
  { createRecord "123456" 0 with status := Status.«open», sock := true }

/-- Sample long-connected record under code 100001 (created at time 0,
status open). -/
def sampleOpenOld : SessionRecord :=
  { createRecord "100001" 0 with status := Status.«open», sock := true }

/-- Sample state holding only the old open record. -/
def sampleStateOpen : ServerState :=
  { pairingMap := [("100001", sampleOpenOld)]
    fsDirs := [("sessions/100001", sampleDir)] }

/-- Sample never-connected record under code 100001, created at time 0. -/
def sampleRecA : SessionRecord := { createRecord "100001" 0 with sock := true }

/-- Sample never-connected record under code 100002, created at time 0. -/
def sampleRecB : SessionRecord := { createRecord "100002" 0 with sock := true }

/-- Sample state with two stale records and their (empty) directories. -/
def sampleSweepState : ServerState :=
  { pairingMap := [("100001", sampleRecA), ("100002", sampleRecB)]
    fsDirs := [("sessions/100001", []), ("sessions/100002", [])] }

/-- Sample filesystem fault: removing the first session's directory
throws EACCES, everything else succeeds. -/
def sampleRmFail : String → Option String :=
  fun p => if p = "sessions/100001" then some "EACCES" else none

/-- Sample state with one fresh record and its directory. -/
def sampleState : ServerState :=
  { pairingMap := [("123456", sampleRecord)]
    fsDirs := [("sessions/123456", sampleDir)] }

end PairingServer

namespace PairingServer

theorem getKey_setKey_self {β : Type} (m : List (String × β)) (k : String) (v : β) :
    getKey (setKey m k v) k = some v := by
  induction m with
  | nil => simp [setKey, getKey]
  | cons p t ih =>
    by_cases h : p.1 = k
    · simp [setKey, h, getKey]
    · simp [setKey, h, getKey, ih]

theorem getKey_setKey_ne {β : Type} (m : List (String × β)) (k : String) (v : β) (f : String)
    (h : f ≠ k) : getKey (setKey m k v) f = getKey m f := by
  induction m with
  | nil => simp [setKey, getKey, Ne.symm h]
  | cons p t ih =>
    by_cases hp : p.1 = k
    · simp [setKey, hp, getKey, Ne.symm h, ih]
    · simp only [setKey, hp, if_false, getKey]
      by_cases hf : p.1 = f <;> simp [hf, ih]

theorem getKey_delKey_self {β : Type} (m : List (String × β)) (k : String) :
    getKey (delKey m k) k = none := by
  induction m with
  | nil => rfl
  | cons p t ih =>
    by_cases h : p.1 = k
    · simp [delKey, h, ih]
    · simp [delKey, h, getKey, ih]

theorem getKey_delKey_ne {β : Type} (m : List (String × β)) (k f : String) (h : f ≠ k) :
    getKey (delKey m k) f = getKey m f := by
  induction m with
  | nil => rfl
  | cons p t ih =>
    by_cases hp : p.1 = k
    · simp [delKey, hp, ih, getKey, Ne.symm h]
    · simp only [delKey, hp, if_false, getKey]
      by_cases hf : p.1 = f <;> simp [hf, ih]

theorem getKey_updKey_self {β : Type} (m : List (String × β)) (k : String) (f : β → β) :
    getKey (updKey m k f) k = (getKey m k).map f := by
  induction m with
  | nil => rfl
  | cons p t ih =>
    by_cases h : p.1 = k
    · simp [updKey, h, getKey, ih]
    · simp [updKey, h, getKey, ih]

theorem getKey_updKey_ne {β : Type} (m : List (String × β)) (k c : String) (f : β → β)
    (h : c ≠ k) : getKey (updKey m k f) c = getKey m c := by
  induction m with
  | nil => rfl
  | cons p t ih =>
    by_cases hp : p.1 = k
    · simp [updKey, hp, getKey, ih, Ne.symm h]
    · simp only [updKey, hp, if_false, getKey]
      by_cases hf : p.1 = c <;> simp [hf, ih]

theorem getKey_eq_none_iff {β : Type} (m : List (String × β)) (k : String) :
    getKey m k = none ↔ k ∉ m.map Prod.fst := by
  induction m with
  | nil => simp [getKey]
  | cons p t ih =>
    rw [getKey]
    by_cases h : p.1 = k
    · subst h; simp
    · simp only [h, if_false, ih, List.map_cons, List.mem_cons, not_or]
      have hk : ¬ k = p.1 := Ne.symm h
      tauto

theorem getKey_isSome_mem {β : Type} {m : List (String × β)} {k : String} {v : β}
    (h : getKey m k = some v) : k ∈ m.map Prod.fst := by
  by_contra hc
  rw [← getKey_eq_none_iff] at hc
  rw [h] at hc
  exact Option.noConfusion hc

theorem setKey_eq_append {β : Type} (m : List (String × β)) (k : String) (v : β)
    (h : getKey m k = none) : setKey m k v = m ++ [(k, v)] := by
  induction m with
  | nil => rfl
  | cons p t ih =>
    rw [getKey] at h
    by_cases hp : p.1 = k
    · simp [hp] at h
    · simp only [hp, if_false] at h
      simp [setKey, hp, ih h]

theorem getKey_append_of_none {β : Type} (m l : List (String × β)) (k : String)
    (h : getKey m k = none) : getKey (m ++ l) k = getKey l k := by
  induction m with
  | nil => rfl
  | cons p t ih =>
    rw [getKey] at h
    by_cases hp : p.1 = k
    · simp [hp] at h
    · simp only [hp, if_false] at h
      simp [getKey, hp, ih h]

theorem getKey_append_singleton_ne {β : Type} (m : List (String × β)) (k f : String)
    (v : β) (h : f ≠ k) : getKey (m ++ [(k, v)]) f = getKey m f := by
  induction m with
  | nil => simp [getKey, Ne.symm h]
  | cons p t ih =>
    by_cases hp : p.1 = f <;> simp [getKey, hp, ih]

theorem foldl_setKey_eq {β : Type} (d : List (String × β)) :
    ∀ acc : List (String × β), (acc.map Prod.fst ++ d.map Prod.fst).Nodup →
      d.foldl (fun m p => setKey m p.1 p.2) acc = acc ++ d := by
  induction d with
  | nil => intro acc _; simp
  | cons p t ih =>
    intro acc h
    have hmem : p.1 ∉ acc.map Prod.fst := by
      simp only [List.map_cons, List.nodup_append] at h
      exact fun hc => h.2.2 hc (List.mem_cons_self _ _)
    have hnone : getKey acc p.1 = none := (getKey_eq_none_iff acc p.1).mpr hmem
    have hstep : setKey acc p.1 p.2 = acc ++ [p] := setKey_eq_append acc p.1 p.2 hnone
    have hnd : ((acc ++ [p]).map Prod.fst ++ t.map Prod.fst).Nodup := by
      simpa [List.append_assoc] using h
    calc (p :: t).foldl (fun m q => setKey m q.1 q.2) acc
        = t.foldl (fun m q => setKey m q.1 q.2) (acc ++ [p]) := by
          simp [List.foldl_cons, hstep]
      _ = (acc ++ [p]) ++ t := ih (acc ++ [p]) hnd
      _ = acc ++ p :: t := by simp

theorem filesObject_eq_self (d : Dir) (h : KeysNodup d) : filesObject d = d := by
  have := foldl_setKey_eq d [] (by simpa [KeysNodup] using h)
  simpa [filesObject] using this

end PairingServer

namespace PairingServer

theorem toDigitsCore_ge (fuel : Nat) :
    ∀ (n : Nat) (ds : List Char), ds.length ≤ (Nat.toDigitsCore 10 fuel n ds).length := by
  induction fuel with
  | zero => intro n ds; simp [Nat.toDigitsCore]
  | succ f ih =>
    intro n ds
    rw [Nat.toDigitsCore]
    by_cases h : n / 10 = 0
    · simp [h]
    · simp only [h, if_false]
      calc ds.length ≤ (Nat.digitChar (n % 10) :: ds).length := by simp
        _ ≤ _ := ih (n / 10) (Nat.digitChar (n % 10) :: ds)

theorem toDigitsCore_lower (k : Nat) :
    ∀ (fuel n : Nat) (ds : List Char), 10 ^ k ≤ n → k < fuel →
      k + 1 + ds.length ≤ (Nat.toDigitsCore 10 fuel n ds).length := by
  induction k with
  | zero =>
    intro fuel n ds hn hf
    match fuel, hf with
    | f + 1, _ =>
      rw [Nat.toDigitsCore]
      by_cases h : n / 10 = 0
      · simp [h]; omega
      · simp only [h, if_false]
        have := toDigitsCore_ge f (n / 10) (Nat.digitChar (n % 10) :: ds)
        simp only [List.length_cons] at this
        omega
  | succ k ih =>
    intro fuel n ds hn hf
    match fuel, hf with
    | f + 1, hf =>
      have hdiv : 10 ^ k ≤ n / 10 := by
        rw [Nat.le_div_iff_mul_le (by norm_num)]
        calc 10 ^ k * 10 = 10 ^ (k + 1) := (pow_succ 10 k).symm
          _ ≤ n := hn
      have hne : n / 10 ≠ 0 := by
        have : (0:Nat) < 10 ^ k := Nat.pos_pow_of_pos k (by norm_num)
        omega
      rw [Nat.toDigitsCore]
      simp only [hne, if_false]
      have := ih f (n / 10) (Nat.digitChar (n % 10) :: ds) hdiv (by omega)
      simp only [List.length_cons] at this
      omega

theorem repr_length_six (n : Nat) (h1 : 100000 ≤ n) (h2 : n ≤ 999999) :
    (Nat.repr n).length = 6 := by
  apply le_antisymm
  · exact Nat.repr_length n 6 (by norm_num) (by omega)
  · have hlow := toDigitsCore_lower 5 (n + 1) n [] (by norm_num; omega) (by omega)
    simp only [List.length_nil] at hlow
    calc (6:Nat) = 5 + 1 + 0 := by norm_num
      _ ≤ (Nat.toDigitsCore 10 (n + 1) n []).length := hlow
      _ = (Nat.repr n).length := by
        rw [Nat.repr, Nat.toDigits, List.length_asString]

end PairingServer

namespace PairingServer

theorem joinEntries_cons_cons (x y : String) (s : List String) :
    joinEntries (x :: y :: s) = x ++ ",\n" ++ joinEntries (y :: s) := rfl

theorem stringifyFiles_cons (x : String × String) (t : Dir) :
    stringifyFiles (x :: t) =
      "\x7b\n" ++ joinEntries ((x :: t).map fun p => encodeEntry p.1 p.2) ++ "\n\x7d" := rfl

theorem mem_joinEntries_sub (es : List String) (e : String) (h : e ∈ es) :
    e.data <:+: (joinEntries es).data := by
  induction es with
  | nil => cases h
  | cons x t ih =>
    cases t with
    | nil =>
      rcases List.mem_singleton.mp h with rfl
      exact List.infix_refl _
    | cons y s =>
      rcases List.mem_cons.mp h with rfl | hmem
      · rw [joinEntries_cons_cons, String.append_assoc]
        have : e.data <+: (e ++ (",\n" ++ joinEntries (y :: s))).data := by
          rw [String.data_append]
          exact List.prefix_append _ _
        exact this.isInfix
      · rw [joinEntries_cons_cons]
        have hsuf : (joinEntries (y :: s)).data <:+
            (x ++ ",\n" ++ joinEntries (y :: s)).data := by
          rw [String.data_append]
          exact List.suffix_append _ _
        exact (ih hmem).trans hsuf.isInfix

theorem entry_sub_stringify (d : Dir) (p : String × String) (h : p ∈ d) :
    (encodeEntry p.1 p.2).data <:+: (stringifyFiles d).data := by
  match d, h with
  | x :: t, h =>
    have hmem : encodeEntry p.1 p.2 ∈ (x :: t).map (fun q => encodeEntry q.1 q.2) :=
      List.mem_map_of_mem _ h
    have hjoin := mem_joinEntries_sub _ _ hmem
    have houter : (joinEntries ((x :: t).map fun q => encodeEntry q.1 q.2)).data <:+:
        (stringifyFiles (x :: t)).data := by
      rw [stringifyFiles_cons, String.data_append, String.data_append]
      exact List.infix_append _ _ _
    exact hjoin.trans houter

theorem joinEntries_append_singleton (xs : List String) (y : String) :
    ∀ x : String, joinEntries ((x :: xs) ++ [y]) = joinEntries (x :: xs) ++ ",\n" ++ y := by
  induction xs with
  | nil => intro x; rfl
  | cons x2 t ih =>
    intro x
    calc joinEntries ((x :: x2 :: t) ++ [y])
        = x ++ ",\n" ++ joinEntries ((x2 :: t) ++ [y]) := rfl
      _ = x ++ ",\n" ++ (joinEntries (x2 :: t) ++ ",\n" ++ y) := by rw [ih x2]
      _ = (x ++ ",\n" ++ joinEntries (x2 :: t)) ++ ",\n" ++ y := by
          simp [String.append_assoc]
      _ = joinEntries (x :: x2 :: t) ++ ",\n" ++ y := by rw [joinEntries_cons_cons]

theorem stringify_append_length_lt (d : Dir) (e : String × String) :
    (stringifyFiles d).length < (stringifyFiles (d ++ [e])).length := by
  cases d with
  | nil =>
    have h1 : stringifyFiles ([] ++ [e]) = "\x7b\n" ++ encodeEntry e.1 e.2 ++ "\n\x7d" := rfl
    have h0 : (stringifyFiles ([] : Dir)).length = 2 := by decide
    rw [h1, h0, String.length_append, String.length_append]
    have h2 : ("\x7b\n" : String).length = 2 := by decide
    have h3 : ("\n\x7d" : String).length = 2 := by decide
    omega
  | cons x t =>
    rw [List.cons_append, stringifyFiles_cons, stringifyFiles_cons]
    rw [List.map_cons, List.map_cons, List.map_append, List.map_singleton]
    rw [show encodeEntry x.1 x.2 :: (t.map (fun p => encodeEntry p.1 p.2)
          ++ [(encodeEntry e.1 e.2)])
        = (encodeEntry x.1 x.2 :: t.map (fun p => encodeEntry p.1 p.2))
          ++ [(encodeEntry e.1 e.2)] from rfl]
    rw [joinEntries_append_singleton]
    simp only [String.length_append]
    have : (",\n" : String).length = 2 := by decide
    omega

end PairingServer

namespace PairingServer

theorem getKey_cleanup_self (code : String) (st : ServerState) :
    getKey (cleanupSession code st).pairingMap code = none := by
  rw [cleanupSession]
  cases h : getKey st.pairingMap code with
  | none => exact h
  | some info => exact getKey_delKey_self _ _

theorem getKey_cleanup_ne (ck q : String) (st : ServerState) (h : q ≠ ck) :
    getKey (cleanupSession ck st).pairingMap q = getKey st.pairingMap q := by
  rw [cleanupSession]
  cases h2 : getKey st.pairingMap ck with
  | none => rfl
  | some info => exact getKey_delKey_ne _ _ _ h

theorem sweepGo_none (now : Int) (ks : List String) :
    ∀ (st : ServerState) (c : String), getKey st.pairingMap c = none →
      getKey (sweepGo now ks st).pairingMap c = none := by
  induction ks with
  | nil => intro st c h; exact h
  | cons k rest ih =>
    intro st c h
    cases h2 : getKey st.pairingMap k with
    | none => simp only [sweepGo, h2]; exact ih st c h
    | some info =>
      simp only [sweepGo, h2]
      by_cases he : shouldEvict now info = true
      · rw [if_pos he]
        apply ih
        by_cases hck : c = k
        · subst hck; exact getKey_cleanup_self _ _
        · rw [getKey_cleanup_ne k c st hck]
          exact h
      · rw [if_neg he]
        exact ih st c h

theorem sweepGo_getKey (now : Int) (ks : List String) :
    ∀ (st : ServerState) (c : String) (r : SessionRecord),
      getKey st.pairingMap c = some r →
      getKey (sweepGo now ks st).pairingMap c =
        if c ∈ ks ∧ shouldEvict now r = true then none else some r := by
  induction ks with
  | nil => intro st c r h; simpa using h
  | cons k rest ih =>
    intro st c r h
    by_cases hck : c = k
    · subst hck
      simp only [sweepGo, h]
      by_cases he : shouldEvict now r = true
      · rw [if_pos he]
        have hnone : getKey (cleanupSession c st).pairingMap c = none :=
          getKey_cleanup_self _ _
        rw [sweepGo_none now rest _ _ hnone]
        simp [he]
      · rw [if_neg he]
        rw [ih st c r h]
        simp [he]
    · cases h2 : getKey st.pairingMap k with
      | none =>
        simp only [sweepGo, h2]
        rw [ih st c r h]
        simp [List.mem_cons, hck]
      | some info =>
        simp only [sweepGo, h2]
        by_cases he : shouldEvict now info = true
        · rw [if_pos he]
          have hkeep : getKey (cleanupSession k st).pairingMap c = some r := by
            rw [getKey_cleanup_ne k c st hck]
            exact h
          rw [ih _ c r hkeep]
          simp [List.mem_cons, hck]
        · rw [if_neg he]
          rw [ih st c r h]
          simp [List.mem_cons, hck]

end PairingServer

namespace PairingServer

/-- C1: when a session's connection reports open, the handler writes
into the working directory the consolidated artifact `session_id.json`,
a JSON mapping from file name to file contents that contains, for every
file present in the directory at that moment, that file's name mapped to
its full text content; and the record's status is set to open. -/
theorem C1_open_materializes_artifact (info : SessionRecord) (d : Dir)
    (hnd : KeysNodup d) :
    (openBranch none none info d).record.status = Status.«open» ∧
    getKey (openBranch none none info d).dir "session_id.json"
      = some (stringifyFiles d) ∧
    ∀ p ∈ d, (encodeEntry p.1 p.2).data <:+: (stringifyFiles d).data := by
  refine ⟨rfl, ?_, ?_⟩
  · show getKey (materialize d) "session_id.json" = some (stringifyFiles d)
    rw [materialize, filesObject_eq_self d hnd]
    exact getKey_setKey_self _ _ _
  · intro p hp
    exact entry_sub_stringify d p hp

/-- Witness for C1 on Scenario C's directory (creds.json, app-state.json). -/
theorem C1_witness :
    KeysNodup sampleDir ∧
    (openBranch none none sampleRecord sampleDir).record.status = Status.«open» ∧
    getKey (openBranch none none sampleRecord sampleDir).dir "session_id.json"
      = some (stringifyFiles sampleDir) ∧
    (encodeEntry "creds.json" "x").data <:+: (stringifyFiles sampleDir).data :=
  ⟨by decide,
   (C1_open_materializes_artifact sampleRecord sampleDir (by decide)).1,
   (C1_open_materializes_artifact sampleRecord sampleDir (by decide)).2.1,
   (C1_open_materializes_artifact sampleRecord sampleDir (by decide)).2.2
     ("creds.json", "x") (by decide)⟩

/-- C2: on a sweeper tick, a stored record is evicted exactly when its
status is not open and its age exceeds the TTL; a record with status
open is never evicted, regardless of age. -/
theorem C2_sweep_evicts_iff (now : Int) (st : ServerState) (c : String)
    (r : SessionRecord) (h : getKey st.pairingMap c = some r) :
    getKey (sweepTick now st).pairingMap c =
      (if r.status ≠ Status.«open» ∧ now - r.createdAt > SESSION_TTL
       then none else some r) ∧
    (r.status = Status.«open» → getKey (sweepTick now st).pairingMap c = some r) := by
  have hmem : c ∈ st.pairingMap.map Prod.fst := getKey_isSome_mem h
  have hmain := sweepGo_getKey now (st.pairingMap.map Prod.fst) st c r h
  have heq : shouldEvict now r = true ↔
      (r.status ≠ Status.«open» ∧ now - r.createdAt > SESSION_TTL) := by
    simp [shouldEvict, bne_iff_ne, decide_eq_true_eq, Bool.and_eq_true]
  constructor
  · rw [sweepTick, hmain]
    by_cases hcond : r.status ≠ Status.«open» ∧ now - r.createdAt > SESSION_TTL
    · rw [if_pos ⟨hmem, heq.mpr hcond⟩, if_pos hcond]
    · rw [if_neg (fun hc => hcond (heq.mp hc.2)), if_neg hcond]
  · intro hopen
    rw [sweepTick, hmain, if_neg]
    rintro ⟨_, hev⟩
    exact (heq.mp hev).1 hopen

/-- Witness for C2: an open record far past the TTL survives a tick. -/
theorem C2_witness :
    getKey sampleStateOpen.pairingMap "100001" = some sampleOpenOld ∧
    getKey (sweepTick 1000000000 sampleStateOpen).pairingMap "100001" =
      (if sampleOpenOld.status ≠ Status.«open» ∧
          (1000000000:Int) - sampleOpenOld.createdAt > SESSION_TTL
       then none else some sampleOpenOld) ∧
    getKey (sweepTick 1000000000 sampleStateOpen).pairingMap "100001"
      = some sampleOpenOld :=
  ⟨by decide,
   (C2_sweep_evicts_iff 1000000000 sampleStateOpen "100001" sampleOpenOld (by decide)).1,
   (C2_sweep_evicts_iff 1000000000 sampleStateOpen "100001" sampleOpenOld
     (by decide)).2 (by decide)⟩

/-- C3 counterexample: the qr branch's guard only checks for status
'code', so a scannable-payload event arriving while the status is
'open' sets the status back to 'qr' instead of being ignored. -/
theorem C3_counterexample :
    sampleOpenRecord.status = Status.«open» ∧
    (qrBranch "qr-image-data-url" sampleOpenRecord).status = Status.qr := by
  decide

/-- C3 amended: a scannable-payload event always stores the payload; it
leaves the status unchanged when the status is 'code', but for any other
status — including 'open' — it sets the status to 'qr' (so the status
does regress from 'open' to 'qr' on a late payload event). -/
theorem C3_qr_event_status (img : String) (info : SessionRecord) :
    (qrBranch img info).qr = some img ∧
    (qrBranch img info).status =
      (if info.status = Status.code then Status.code else Status.qr) := by
  by_cases h : info.status = Status.code <;> simp [qrBranch, h]

/-- C4 counterexample: materializing twice is not byte-for-byte
idempotent — the second consolidated document embeds the first artifact
under the name session_id.json, so the stored documents differ. -/
theorem C4_counterexample :
    getKey (materialize (materialize sampleDirOne)) "session_id.json" ≠
      getKey (materialize sampleDirOne) "session_id.json" := by
  decide

/-- C4 amended: materialization never modifies any file other than
session_id.json (one or two runs leave every other lookup unchanged, so
the working directory is not corrupted), but on a directory not already
containing session_id.json the second run writes a strictly different
consolidated document, which additionally embeds the first artifact. -/
theorem C4_rematerialize (d : Dir) (hnd : KeysNodup d)
    (hno : getKey d "session_id.json" = none) :
    (∀ f, f ≠ "session_id.json" → getKey (materialize d) f = getKey d f) ∧
    (∀ f, f ≠ "session_id.json" →
      getKey (materialize (materialize d)) f = getKey d f) ∧
    getKey (materialize (materialize d)) "session_id.json" ≠
      getKey (materialize d) "session_id.json" := by
  have hfo : filesObject d = d := filesObject_eq_self d hnd
  have hm1 : materialize d = d ++ [("session_id.json", stringifyFiles d)] := by
    rw [materialize, hfo, setKey_eq_append d _ _ hno]
  have hsid : "session_id.json" ∉ d.map Prod.fst := (getKey_eq_none_iff d _).mp hno
  have hnd1 : KeysNodup (d ++ [("session_id.json", stringifyFiles d)]) := by
    simp only [KeysNodup, List.map_append, List.map_cons, List.map_nil,
      List.nodup_append] at *
    exact ⟨hnd, List.nodup_singleton _, by
      intro a ha hb
      rw [List.mem_singleton] at hb
      exact hsid (hb ▸ ha)⟩
  have hfo1 : filesObject (d ++ [("session_id.json", stringifyFiles d)])
      = d ++ [("session_id.json", stringifyFiles d)] :=
    filesObject_eq_self _ hnd1
  have hm2 : materialize (materialize d) =
      setKey (d ++ [("session_id.json", stringifyFiles d)]) "session_id.json"
        (stringifyFiles (d ++ [("session_id.json", stringifyFiles d)])) := by
    rw [hm1, materialize, hfo1]
  refine ⟨?_, ?_, ?_⟩
  · intro f hf
    rw [materialize, hfo]
    exact getKey_setKey_ne d _ _ f hf
  · intro f hf
    rw [hm2, getKey_setKey_ne _ _ _ f hf, getKey_append_singleton_ne d _ f _ hf]
  · rw [hm2, getKey_setKey_self, hm1, getKey_append_of_none d _ _ hno]
    have hone : getKey [("session_id.json", stringifyFiles d)] "session_id.json"
        = some (stringifyFiles d) := by simp [getKey]
    rw [hone]
    intro hcontra
    have hJ := Option.some.inj hcontra
    have hlt := stringify_append_length_lt d ("session_id.json", stringifyFiles d)
    rw [hJ] at hlt
    exact lt_irrefl _ hlt

/-- Witness for C4's amended statement on the one-file directory. -/
theorem C4_witness :
    KeysNodup sampleDirOne ∧ getKey sampleDirOne "session_id.json" = none ∧
    getKey (materialize sampleDirOne) "creds.json" = getKey sampleDirOne "creds.json" ∧
    getKey (materialize (materialize sampleDirOne)) "creds.json"
      = getKey sampleDirOne "creds.json" ∧
    getKey (materialize (materialize sampleDirOne)) "session_id.json" ≠
      getKey (materialize sampleDirOne) "session_id.json" :=
  ⟨by decide, by decide,
   (C4_rematerialize sampleDirOne (by decide) (by decide)).1 "creds.json" (by decide),
   (C4_rematerialize sampleDirOne (by decide) (by decide)).2.1 "creds.json" (by decide),
   (C4_rematerialize sampleDirOne (by decide) (by decide)).2.2⟩

end PairingServer

namespace PairingServer

/-- C5: after a record is evicted, a status lookup by that code returns
not-found, an artifact fetch returns not-found, and the record's working
directory is gone. -/
theorem C5_eviction_not_found (now : Int) (st : ServerState) (code : String)
    (info : SessionRecord) (h : getKey st.pairingMap code = some info) :
    statusQuery now code (cleanupSession code st) = none ∧
    downloadSession code (cleanupSession code st) = DownloadResult.invalidCode ∧
    getKey (cleanupSession code st).fsDirs info.sessionPath = none := by
  have hmap : getKey (cleanupSession code st).pairingMap code = none :=
    getKey_cleanup_self code st
  refine ⟨?_, ?_, ?_⟩
  · simp only [statusQuery, hmap]
  · simp only [downloadSession, hmap]
  · simp only [cleanupSession, h]
    exact getKey_delKey_self _ _

/-- Witness for C5 on the sample state. -/
theorem C5_witness :
    getKey sampleState.pairingMap "123456" = some sampleRecord ∧
    statusQuery 0 "123456" (cleanupSession "123456" sampleState) = none ∧
    downloadSession "123456" (cleanupSession "123456" sampleState)
      = DownloadResult.invalidCode ∧
    getKey (cleanupSession "123456" sampleState).fsDirs sampleRecord.sessionPath
      = none :=
  ⟨by decide,
   (C5_eviction_not_found 0 sampleState "123456" sampleRecord (by decide)).1,
   (C5_eviction_not_found 0 sampleState "123456" sampleRecord (by decide)).2.1,
   (C5_eviction_not_found 0 sampleState "123456" sampleRecord (by decide)).2.2⟩

/-- C6: whenever the allocator's retry loop returns a code, that code is
absent from the store's key set and is the decimal representation of a
number between 100000 and 999999, hence a fixed-width 6-digit string. -/
theorem C6_allocator (m : List (String × SessionRecord)) (rands : List Nat)
    (c : String) (h1 : ∀ r ∈ rands, r < 900000)
    (h2 : allocateCode m rands = some c) :
    getKey m c = none ∧
    ∃ n : Nat, c = Nat.repr n ∧ 100000 ≤ n ∧ n ≤ 999999 ∧ c.length = 6 := by
  induction rands with
  | nil => simp [allocateCode] at h2
  | cons r rs ih =>
    simp only [allocateCode] at h2
    by_cases hx : (getKey m (genCode r)).isSome = true
    · rw [if_pos hx] at h2
      exact ih (fun q hq => h1 q (List.mem_cons_of_mem r hq)) h2
    · rw [if_neg hx] at h2
      have hc : c = genCode r := (Option.some.inj h2).symm
      have hnone : getKey m c = none := by
        rw [hc]
        exact Option.not_isSome_iff_eq_none.mp hx
      have hr : r < 900000 := h1 r (List.mem_cons_self r rs)
      refine ⟨hnone, 100000 + r, ?_, by omega, by omega, ?_⟩
      · rw [hc, genCode]
      · rw [hc, genCode]
        exact repr_length_six _ (by omega) (by omega)

/-- Witness for C6: one draw against the sample store. -/
theorem C6_witness :
    (∀ r ∈ [423551], r < 900000) ∧
    allocateCode sampleState.pairingMap [423551] = some "523551" ∧
    getKey sampleState.pairingMap "523551" = none ∧
    ∃ n : Nat, "523551" = Nat.repr n ∧ 100000 ≤ n ∧ n ≤ 999999 ∧
      ("523551" : String).length = 6 :=
  ⟨by decide, by decide,
   (C6_allocator sampleState.pairingMap [423551] "523551" (by decide) (by decide)).1,
   (C6_allocator sampleState.pairingMap [423551] "523551" (by decide) (by decide)).2⟩

/-- C7: an exception raised while starting a pairing attempt is caught
by the catch handler of GET /pair, which sets the record's status to
'error' and its error field to the failure description; every other
session's record is left unchanged. -/
theorem C7_startup_failure (vf ai : Except String Unit) (code : String)
    (st : ServerState) (info : SessionRecord) (e : String)
    (h : getKey st.pairingMap code = some info)
    (hf : startPairingAttempt vf ai code st = Except.error e) :
    getKey (pairBackground vf ai code st).pairingMap code =
      some { info with status := Status.error, error := some e } ∧
    ∀ c, c ≠ code →
      getKey (pairBackground vf ai code st).pairingMap c = getKey st.pairingMap c := by
  have hpb : pairBackground vf ai code st = pairCatchHandler code e st := by
    rw [pairBackground, hf]
  constructor
  · rw [hpb]
    show getKey (updKey st.pairingMap code _) code = _
    rw [getKey_updKey_self, h]
    rfl
  · intro c hc
    rw [hpb]
    exact getKey_updKey_ne _ _ _ _ hc

/-- Witness for C7: a version-negotiation failure on the sample state. -/
theorem C7_witness :
    getKey sampleState.pairingMap "123456" = some sampleRecord ∧
    startPairingAttempt (Except.error "boom") (Except.ok ()) "123456" sampleState
      = Except.error "boom" ∧
    getKey (pairBackground (Except.error "boom") (Except.ok ()) "123456"
        sampleState).pairingMap "123456"
      = some { sampleRecord with status := Status.error, error := some "boom" } ∧
    getKey (pairBackground (Except.error "boom") (Except.ok ()) "123456"
        sampleState).pairingMap "999999" = getKey sampleState.pairingMap "999999" :=
  ⟨by decide, by rfl,
   (C7_startup_failure (Except.error "boom") (Except.ok ()) "123456" sampleState
     sampleRecord "boom" (by decide) (by rfl)).1,
   (C7_startup_failure (Except.error "boom") (Except.ok ()) "123456" sampleState
     sampleRecord "boom" (by decide) (by rfl)).2 "999999" (by decide)⟩

/-- C8 counterexample: the sweeper body has no per-record try/catch, so
when evicting the first stale record throws EACCES, the error escapes
the tick and the second stale record — though past its TTL — is not
evicted in that tick. -/
theorem C8_counterexample :
    (sweepTickF sampleRmFail 1000000 sampleSweepState).2 = some "EACCES" ∧
    getKey (sweepTickF sampleRmFail 1000000 sampleSweepState).1.pairingMap "100002"
      = some sampleRecB ∧
    shouldEvict 1000000 sampleRecB = true := by
  decide

/-- C8 amended: eviction failures are not isolated — when the eviction
of the first record of the map throws, the whole tick aborts with that
error: no record is removed in that tick and the remaining records are
not processed. -/
theorem C8_sweep_aborts (rmFail : String → Option String) (now : Int)
    (st : ServerState) (c : String) (r : SessionRecord)
    (rest : List (String × SessionRecord)) (e : String)
    (hm : st.pairingMap = (c, r) :: rest)
    (he : shouldEvict now r = true)
    (hd : (getKey st.fsDirs r.sessionPath).isSome = true)
    (hf : rmFail r.sessionPath = some e) :
    sweepTickF rmFail now st = (st, some e) := by
  have hg : getKey st.pairingMap c = some r := by
    rw [hm, getKey, if_pos rfl]
  rw [sweepTickF, hm]
  simp only [List.map_cons]
  simp only [sweepGoF, hg, he, if_true]
  simp only [cleanupSessionF, hg, if_pos hd, hf]

/-- Witness for C8's amended statement on the two-record sample state. -/
theorem C8_witness :
    sampleSweepState.pairingMap = ("100001", sampleRecA) :: [("100002", sampleRecB)] ∧
    shouldEvict 1000000 sampleRecA = true ∧
    (getKey sampleSweepState.fsDirs sampleRecA.sessionPath).isSome = true ∧
    sampleRmFail sampleRecA.sessionPath = some "EACCES" ∧
    sweepTickF sampleRmFail 1000000 sampleSweepState = (sampleSweepState, some "EACCES") :=
  ⟨by decide, by decide, by decide, by decide,
   C8_sweep_aborts sampleRmFail 1000000 sampleSweepState "100001" sampleRecA
     [("100002", sampleRecB)] "EACCES" (by decide) (by decide) (by decide) (by decide)⟩

/-- C9 counterexample: a failure of the consolidated-artifact write is
not caught by the handler — nothing is logged and the error escapes the
connection.update callback, contradicting the claim that such failures
are logged and neither swallowed nor escalated. -/
theorem C9_counterexample :
    (openBranch none (some "EIO") sampleRecord sampleDir).thrown = some "EIO" ∧
    (openBranch none (some "EIO") sampleRecord sampleDir).warnLog = [] := by
  decide

/-- C9 amended: the status is set to open before the fallible artifact
steps and stays open under any failure; a credential-flush failure is
caught and logged via console.warn; but an artifact-write failure is not
caught by the handler and propagates out of the callback. -/
theorem C9_open_failures (credsFail writeFail : Option String)
    (info : SessionRecord) (d : Dir) :
    (openBranch credsFail writeFail info d).record.status = Status.«open» ∧
    (credsFail.isSome = true →
      (openBranch credsFail writeFail info d).warnLog ≠ []) ∧
    (openBranch credsFail writeFail info d).thrown = writeFail := by
  refine ⟨?_, ?_, ?_⟩ <;> cases credsFail <;> cases writeFail <;> simp [openBranch]

/-- Witness for C9's amended statement with both failures present. -/
theorem C9_witness :
    (openBranch (some "ECRED") (some "EIO") sampleRecord sampleDir).record.status
      = Status.«open» ∧
    (openBranch (some "ECRED") (some "EIO") sampleRecord sampleDir).warnLog ≠ [] ∧
    (openBranch (some "ECRED") (some "EIO") sampleRecord sampleDir).thrown
      = some "EIO" :=
  ⟨(C9_open_failures (some "ECRED") (some "EIO") sampleRecord sampleDir).1,
   (C9_open_failures (some "ECRED") (some "EIO") sampleRecord sampleDir).2.1
     (by decide),
   (C9_open_failures (some "ECRED") (some "EIO") sampleRecord sampleDir).2.2⟩

/-- C10: for every stored record, the status query succeeds and reports
expiresIn = max(0, TTL - (now - createdAt)), which is never negative;
a record older than the TTL is still queryable and reports exactly 0. -/
theorem C10_expires_in (now : Int) (st : ServerState) (code : String)
    (info : SessionRecord) (h : getKey st.pairingMap code = some info) :
    ∃ resp, statusQuery now code st = some resp ∧
      resp.expiresIn = max 0 (SESSION_TTL - (now - info.createdAt)) ∧
      0 ≤ resp.expiresIn ∧
      (now - info.createdAt > SESSION_TTL → resp.expiresIn = 0) := by
  have hq : statusQuery now code st = some
      { ok := true
        code := info.code
        status := info.status
        qrAvailable := info.qr.isSome
        pairingCode := info.pairingCode
        sessionReady :=
          (getKey ((getKey st.fsDirs info.sessionPath).getD []) "session_id.json").isSome
        expiresIn := max 0 (SESSION_TTL - (now - info.createdAt))
        error := info.error } := by
    simp only [statusQuery, h]
  refine ⟨_, hq, rfl, le_max_left _ _, ?_⟩
  intro hgt
  have hle : SESSION_TTL - (now - info.createdAt) ≤ 0 := by omega
  exact max_eq_left hle

/-- Witness for C10: the stale open record reports expiresIn zero but is
still queryable. -/
theorem C10_witness :
    getKey sampleStateOpen.pairingMap "100001" = some sampleOpenOld ∧
    ∃ resp, statusQuery 1000000000 "100001" sampleStateOpen = some resp ∧
      resp.expiresIn = max 0 (SESSION_TTL - (1000000000 - sampleOpenOld.createdAt)) ∧
      0 ≤ resp.expiresIn ∧
      ((1000000000:Int) - sampleOpenOld.createdAt > SESSION_TTL → resp.expiresIn = 0) :=
  ⟨by decide,
   C10_expires_in 1000000000 sampleStateOpen "100001" sampleOpenOld (by decide)⟩

end PairingServer
